import Mathlib

/-!
Verification development for the account-generator bot repository.

The definitions below are a shallow embedding of the server-side logic:
  - the storage layer (`src/server/routes.ts`, classes `MemStorage` /
    `DatabaseStorage`): `getAccounts`, `updateAccount`, `createLog`,
    `createCategory`, `createAccount`, `getCategoryByName`;
  - the Discord command layer (`src/server/db.ts`, `createDiscordBot`):
    `isAdmin`, `hasPermission`, `handleGenerateCommand`, `handleAddCommand`,
    and the message-dispatch `switch`;
  - the auth layer (`comparePasswords`, `login`).

Timestamps are naturals (milliseconds); nullable columns are `Option`;
the `status` column is the literal string stored by the code
("available" / "generated").  Storage rows are a `List` kept in the order
the storage layer returns them: for `MemStorage` this is `Map` insertion
order; the production `DatabaseStorage.getAccounts` SQL query has no
ORDER BY, so for it this order is whatever the database returns and is
not tied to `createdAt`.
-/

namespace AcctGen

/-! ### String primitives

The Lean core `String` functions are implemented over byte positions and
do not reduce inside the kernel, so the string operations the source
uses (`toLowerCase`, `includes`, `startsWith`, `trim`, `slice`,
`split`) are given here structurally over the character list of the
string, with the same semantics. -/

def lowerStr (s : String) : String := ⟨s.data.map Char.toLower⟩

/-- Model of JS `s.includes(c)` for a single-character needle. -/
def containsChar (s : String) (c : Char) : Bool := s.data.contains c

/-- Model of JS `s.startsWith(pfx)`. -/
def startsWithStr (s pfx : String) : Bool := pfx.data.isPrefixOf s.data

/-- Model of JS `s.trim()`. -/
def trimStr (s : String) : String :=
  ⟨((s.data.dropWhile Char.isWhitespace).reverse.dropWhile Char.isWhitespace).reverse⟩

/-- Model of JS `s.slice(n)`. -/
def dropStr (s : String) (n : Nat) : String := ⟨s.data.drop n⟩

def lengthStr (s : String) : Nat := s.data.length

def splitChars (c : Char) : List Char → List (List Char)
  | [] => [[]]
  | x :: xs =>
    let r := splitChars c xs
    if x = c then [] :: r
    else
      match r with
      | h :: t => (x :: h) :: t
      | [] => [[x]]

/-- Model of JS `s.split(c)` for a single-character separator (empty segments
kept, `""` splitting to `[""]`), as used with `":"`, `"."` and — after
`trim` — the regexp `/ +/`. -/
def splitOnChar (c : Char) (s : String) : List String :=
  (splitChars c s.data).map List.asString

structure Account where
  id : Nat
  email : String
  password : String
  categoryId : Nat
  status : String
  expiresAt : Option Nat
  generatedBy : Option String
  generatedAt : Option Nat
  createdAt : Nat
  updatedAt : Nat
  deriving Repr, DecidableEq

structure Category where
  id : Nat
  name : String
  description : String
  deriving Repr, DecidableEq

structure LogEntry where
  type : String
  action : String
  message : String
  deriving Repr, DecidableEq

/-- One guild's bot settings row.  The source field `prefix` is spelled
`prefixStr` here because `prefix` is reserved in Lean. -/
structure BotSettings where
  prefixStr : String
  allowedRoles : List String
  adminRoles : List String
  cooldown : Nat
  deriving Repr, DecidableEq

/-- The requester as seen by the guild: role ids held, and whether the
platform grants the Administrator permission
(`message.member.permissions.has("Administrator")`). -/
structure Member where
  roles : List String
  hasAdministratorPerm : Bool
  deriving Repr, DecidableEq

/-- The durable state touched by the bot commands: account rows (in
storage-return order), categories, the append-only log, and the id
counters used on insert. -/
structure Store where
  accounts : List Account
  categories : List Category
  logs : List LogEntry
  nextAccountId : Nat
  nextCategoryId : Nat
  deriving Repr, DecidableEq

/-- Model of `storage.getAccounts({categoryId, status})`
(`src/server/routes.ts` MemStorage lines 551-572, DatabaseStorage lines
824-844): filters rows by category and status, preserving the order the
rows came back in.  Neither implementation orders by `createdAt`; the
DatabaseStorage query has no ORDER BY clause. -/
def getAccounts (s : Store) (categoryId : Nat) (status : String) : List Account :=
  (s.accounts.filter (fun a => a.categoryId = categoryId)).filter
    (fun a => a.status = status)

/-- A partial account update, as passed to `storage.updateAccount`:
a field that is `none` here was absent from the update object and keeps
its old value (JS object spread `{ ...account, ...updateData }` /
SQL `SET` of only the given columns). -/
structure AccountUpdate where
  status : Option String := none
  generatedBy : Option (Option String) := none
  generatedAt : Option (Option Nat) := none
  deriving Repr

def applyUpdate (u : AccountUpdate) (now : Nat) (a : Account) : Account :=
  { a with
    status := u.status.getD a.status
    generatedBy := u.generatedBy.getD a.generatedBy
    generatedAt := u.generatedAt.getD a.generatedAt
    updatedAt := now }

/-- Model of `storage.createLog` (`routes.ts` lines 1006-1009): append one entry. -/
def createLogS (s : Store) (type action message : String) : Store :=
  { s with logs := s.logs ++ [⟨type, action, message⟩] }

/-- Model of `storage.updateAccount(id, updateData)` (`routes.ts`,
DatabaseStorage lines 900-918): select the row by id; if absent return
`undefined` and change nothing; otherwise update the row (partial
update, `updatedAt := now`), append an `ACCOUNT_UPDATED` log entry, and
return the updated row. -/
def updateAccount (s : Store) (id : Nat) (u : AccountUpdate) (now : Nat) :
    Store × Option Account :=
  match s.accounts.find? (fun a => a.id = id) with
  | none => (s, none)
  | some _ =>
    let accounts' := s.accounts.map (fun a => if a.id = id then applyUpdate u now a else a)
    let updated := accounts'.find? (fun a => a.id = id)
    let email := (updated.map (·.email)).getD ""
    ({ s with accounts := accounts'
              logs := s.logs ++ [⟨"info", "ACCOUNT_UPDATED", email⟩] }, updated)

/-- Model of `storage.getCategoryByName(name)` (`routes.ts` lines 942-949):
case-insensitive match on the category name. -/
def getCategoryByName (s : Store) (name : String) : Option Category :=
  s.categories.find? (fun c => lowerStr c.name = lowerStr name)

/-- Model of `storage.createCategory` (`routes.ts` lines 955-958): insert with the
next surrogate id. -/
def createCategoryS (s : Store) (name description : String) : Store × Category :=
  let c : Category := ⟨s.nextCategoryId, name, description⟩
  ({ s with categories := s.categories ++ [c]
            nextCategoryId := s.nextCategoryId + 1 }, c)

/-- Model of `storage.createAccount` (`routes.ts` lines 874-885): insert the row
with the next surrogate id and `createdAt = updatedAt = now`, then append
an `ACCOUNT_CREATED` log entry. -/
def createAccountS (s : Store) (email password : String) (categoryId : Nat)
    (status : String) (expiresAt : Option Nat) (generatedBy : Option String)
    (generatedAt : Option Nat) (now : Nat) : Store × Account :=
  let a : Account :=
    ⟨s.nextAccountId, email, password, categoryId, status, expiresAt,
      generatedBy, generatedAt, now, now⟩
  ({ s with accounts := s.accounts ++ [a]
            nextAccountId := s.nextAccountId + 1
            logs := s.logs ++ [⟨"info", "ACCOUNT_CREATED", email⟩] }, a)

/-- Model of `isAdmin` (`src/server/db.ts` lines 150-167).  Outside a guild, only
the configured owner id passes.  Inside a guild: with no configured
admin roles, only the platform Administrator permission passes; else any
configured admin role held, or the Administrator permission.  The
`settings` argument stands for the `storage.getBotSettings(guildId)`
lookup the source performs (`none` = no settings row). -/
def isAdminCheck (inGuild isOwner : Bool) (settings : Option BotSettings)
    (m : Member) : Bool :=
  if !inGuild then isOwner
  else
    match settings with
    | none => m.hasAdministratorPerm
    | some st =>
      if st.adminRoles.isEmpty then m.hasAdministratorPerm
      else st.adminRoles.any (fun r => m.roles.contains r) || m.hasAdministratorPerm

/-- Model of `hasPermission` (`src/server/db.ts` lines 170-185).  In DMs everyone
passes; in a guild with no settings row or an empty `allowedRoles` list
everyone passes; else any allowed role held, or `isAdmin`.  (In the
source `... || isAdmin(message)` returns the promise from the async
helper, which the surrounding async function resolves to its boolean.) -/
def hasPermission (inGuild isOwner : Bool) (settings : Option BotSettings)
    (m : Member) : Bool :=
  if !inGuild then true
  else
    match settings with
    | none => true
    | some st =>
      if st.allowedRoles.isEmpty then true
      else st.allowedRoles.any (fun r => m.roles.contains r)
           || isAdminCheck inGuild isOwner settings m

/-- The caller context of one inbound message: whether it arrived in a
guild, whether the author matches `DISCORD_OWNER_ID`, the author's guild
membership, and `message.author.tag`. -/
structure Ctx where
  inGuild : Bool
  isOwner : Bool
  member : Member
  authorTag : String
  deriving Repr

inductive GenOutcome where
  | permissionDenied
  | usageError
  | categoryNotFound
  | stockExhausted
  | success (accountId : Nat)
  | dmFailed (accountId : Nat)
  deriving Repr, DecidableEq

/-- The observable result of one `handleGenerateCommand` run: the store
afterwards, which branch replied, how many channel replies
(`message.reply`) were sent and how many private messages
(`message.author.send`) were sent. -/
structure GenResult where
  store : Store
  outcome : GenOutcome
  replies : Nat
  dms : Nat
  deriving Repr

/-- Model of `handleGenerateCommand` (`src/server/db.ts` lines 188-274), for a
guild message with its settings row present.  The branches, in source
order: permission check (reply only, no log); missing / empty service
argument (reply only); unknown category (reply only); no
status-available account in the category (warning log + reply); else
take the FIRST account the storage returned, mark it generated via
`storage.updateAccount` (which itself logs `ACCOUNT_UPDATED`), log
`ACCOUNT_GENERATED`, DM the credentials, and reply in channel — and if
the DM fails, revert with `updateAccount(id, { status: "available" })`
(only the status field!) and reply with the DM error.  The source
performs NO cooldown check (its own comment at lines 194-195 says so)
and never looks at `expiresAt` when selecting. -/
def handleGenerateCommand (s : Store) (ctx : Ctx) (settings : BotSettings)
    (args : List String) (dmOk : Bool) (now : Nat) : GenResult :=
  if !hasPermission ctx.inGuild ctx.isOwner (some settings) ctx.member then
    ⟨s, .permissionDenied, 1, 0⟩
  else
    let serviceName := ((args.head?).map lowerStr).getD ""
    if serviceName = "" then ⟨s, .usageError, 1, 0⟩
    else
      match getCategoryByName s serviceName with
      | none => ⟨s, .categoryNotFound, 1, 0⟩
      | some category =>
        match getAccounts s category.id "available" with
        | [] =>
          ⟨createLogS s "warning" "ACCOUNT_GENERATION_FAILED" serviceName,
            .stockExhausted, 1, 0⟩
        | account :: _ =>
          let s1 := (updateAccount s account.id
            { status := some "generated"
              generatedBy := some (some ctx.authorTag)
              generatedAt := some (some now) } now).1
          let s2 := createLogS s1 "success" "ACCOUNT_GENERATED" account.email
          if dmOk then ⟨s2, .success account.id, 1, 1⟩
          else
            let s3 := (updateAccount s2 account.id { status := some "available" } now).1
            ⟨s3, .dmFailed account.id, 1, 1⟩

inductive AddOutcome where
  | permissionDenied
  | formatError
  | invalidFormat
  | added (categoryId accountId : Nat)
  deriving Repr, DecidableEq

/-- Model of `handleAddCommand` (`src/server/db.ts` lines 361-424): admin check;
needs two arguments; the second must contain a colon and is split into
`email:password` (JS destructuring of `split(":")` keeps the first two
parts); find the category by (case-insensitive) name, creating it with
description `"<name> accounts"` when absent; insert the account as
`available` with null `expiresAt` / `generatedBy` / `generatedAt`
(`storage.createAccount` logs `ACCOUNT_CREATED`); log `ACCOUNT_ADDED`;
reply with success. -/
def handleAddCommand (s : Store) (ctx : Ctx) (settings : Option BotSettings)
    (args : List String) (now : Nat) : Store × AddOutcome :=
  if !isAdminCheck ctx.inGuild ctx.isOwner settings ctx.member then
    (s, .permissionDenied)
  else if args.length < 2 then (s, .formatError)
  else
    let serviceName := args.headD ""
    let accountDetails := args.getD 1 ""
    if !containsChar accountDetails ':' then (s, .invalidFormat)
    else
      let parts := splitOnChar ':' accountDetails
      let email := parts.headD ""
      let password := parts.getD 1 ""
      let (s1, category) :=
        match getCategoryByName s serviceName with
        | some c => (s, c)
        | none => createCategoryS s serviceName (serviceName ++ " accounts")
      let (s2, account) :=
        createAccountS s1 email password category.id "available" none none none now
      let s3 := createLogS s2 "success" "ACCOUNT_ADDED" email
      (s3, .added category.id account.id)

/-! ### Web authentication (`src/server/auth.ts`) -/

structure User where
  id : Nat
  username : String
  password : String
  isAdmin : Bool
  deriving Repr, DecidableEq

/-- Model of `comparePasswords(supplied, stored)` (auth source lines 23-33).  A
stored value without a `.` separator is a legacy plaintext password and
is compared by plain string equality; otherwise the part before the dot
is the scrypt hash of the supplied password under the salt after the
dot.  The scrypt primitive is external to the repository, so it is
abstracted as the argument `scryptHex` (supplied password and salt to
hex digest); `timingSafeEqual` of the two digest buffers is modelled as
equality of the hex strings. -/
def comparePasswords (scryptHex : String → String → String)
    (supplied stored : String) : Bool :=
  if !containsChar stored '.' then supplied == stored
  else
    let parts := splitOnChar '.' stored
    let hashed := parts.headD ""
    let salt := parts.getD 1 ""
    hashed == scryptHex supplied salt

/-- The credential check inside the `login` handler (auth source lines
81-101): look the user up by username; a missing user or a failing
`comparePasswords` yields 401, otherwise the session is established. -/
def loginCheck (scryptHex : String → String → String) (users : List User)
    (username password : String) : Bool :=
  match users.find? (fun u => u.username = username) with
  | none => false
  | some u => comparePasswords scryptHex password u.password

/-! ### The message dispatcher (`src/server/db.ts` lines 90-136) -/

/-- The eleven command names the `switch` statement recognises. -/
def knownCommands : List String :=
  ["generate", "stock", "add", "status", "help", "profile", "cooldown",
   "info", "remove", "blacklist", "setcooldown"]

/-- Parsing step `content.slice(prefix length).trim().split(/ +/)` followed by
`args.shift()?.toLowerCase()`: the command word (lowercased) and the
remaining argument words.  On a trimmed-empty remainder the JS split
yields `[""]`, so the command is the empty string. -/
def parseCommand (pfx content : String) : String × List String :=
  let rest := trimStr (dropStr content (lengthStr pfx))
  let words := (splitOnChar ' ' rest).filter (fun w => w ≠ "")
  (((words.head?).map lowerStr).getD "", words.tail)

inductive RouteResult where
  /-- One of the eleven `case` branches runs its handler. -/
  | handled (command : String) (args : List String)
  /-- The message does not start with the prefix, or the `switch`
  falls through to the empty `default:` branch: no storage operation,
  no reply, no error. -/
  | noAction
  deriving Repr, DecidableEq

/-- The message-dispatch logic of `client.on(Events.MessageCreate, ...)`:
ignore content that does not start with the configured prefix, parse the
command word, and dispatch through the `switch`; an unrecognised command
word hits the empty `default:` branch. -/
def routeMessage (pfx content : String) : RouteResult :=
  if !startsWithStr content pfx then .noAction
  else
    let (command, args) := parseCommand pfx content
    if command ∈ knownCommands then .handled command args
    else .noAction

/-! ### Interleaved executions of two concurrent generate commands

`handleGenerateCommand` reaches its account via two separate awaited
storage calls: `storage.getAccounts(...)` (db.ts line 213) and then
`storage.updateAccount(account.id, ...)` (line 232).  Each `await` is a
scheduling point, so two concurrent generate commands for the same
category interleave at the granularity of whole storage calls.  A
process is therefore modelled with two visible steps: one that takes the
snapshot `getAccounts` returned, and one that acts on that snapshot
(log-and-fail on empty, or mark the first account generated and log). -/

inductive ClaimPhase where
  | ready
  | selected (snapshot : List Account)
  | finished (outcome : GenOutcome)
  deriving Repr, DecidableEq

structure ClaimProc where
  userTag : String
  phase : ClaimPhase
  deriving Repr, DecidableEq

/-- One storage-call step of a concurrent generate command for category
`categoryId` (the permission and category-lookup steps, which do not
write, are already past). -/
def claimStep (categoryId now : Nat) (s : Store) (p : ClaimProc) :
    Store × ClaimProc :=
  match p.phase with
  | .ready => (s, { p with phase := .selected (getAccounts s categoryId "available") })
  | .selected [] =>
    (createLogS s "warning" "ACCOUNT_GENERATION_FAILED" p.userTag,
      { p with phase := .finished .stockExhausted })
  | .selected (account :: _) =>
    let s1 := (updateAccount s account.id
      { status := some "generated"
        generatedBy := some (some p.userTag)
        generatedAt := some (some now) } now).1
    let s2 := createLogS s1 "success" "ACCOUNT_GENERATED" account.email
    (s2, { p with phase := .finished (.success account.id) })
  | .finished _ => (s, p)

/-- Run two concurrent generate commands under a schedule: `true` steps
the first process, `false` the second. -/
def runClaims (categoryId now : Nat) :
    Store → ClaimProc → ClaimProc → List Bool → Store × ClaimProc × ClaimProc
  | s, p1, p2, [] => (s, p1, p2)
  | s, p1, p2, true :: rest =>
    let (s', p1') := claimStep categoryId now s p1
    runClaims categoryId now s' p1' p2 rest
  | s, p1, p2, false :: rest =>
    let (s', p2') := claimStep categoryId now s p2
    runClaims categoryId now s' p1 p2' rest

/-! ### Derived notions used by the statements -/

/-- The record invariant of spec section 3: `status = available` exactly
when `generatedBy` and `generatedAt` are both null. -/
def statusInv (a : Account) : Prop :=
  a.status = "available" ↔ (a.generatedBy = none ∧ a.generatedAt = none)

instance (a : Account) : Decidable (statusInv a) := by
  unfold statusInv; infer_instance

/-- How many log entries one `handleGenerateCommand` run appends, by
outcome: the three early error replies log nothing; the empty-stock
branch logs once; a successful claim logs twice (`ACCOUNT_UPDATED` from
`storage.updateAccount` plus `ACCOUNT_GENERATED`); the delivery-failure
branch logs a third time for the reverting `updateAccount`. -/
def logCountOf : GenOutcome → Nat
  | .stockExhausted => 1
  | .success _ => 2
  | .dmFailed _ => 3
  | _ => 0

/-- Oldest-`createdAt`-first, ties by lowest id: the FIFO selection
order the spec prescribes. -/
def fifoLt (x y : Account) : Prop :=
  x.createdAt < y.createdAt ∨ (x.createdAt = y.createdAt ∧ x.id < y.id)

instance (x y : Account) : Decidable (fifoLt x y) := by
  unfold fifoLt; infer_instance

/-! ### Concrete fixtures for the claim-level theorems -/

def sampleCategory : Category := ⟨1, "netflix", "Netflix accounts"⟩

def oldAccount : Account := ⟨1, "a@x.com", "pw1", 1, "available", none, none, none, 5, 5⟩

def newAccount : Account := ⟨2, "b@x.com", "pw2", 1, "available", none, none, none, 10, 10⟩

def expiredAccount : Account := ⟨1, "old@x.com", "pw", 1, "available", some 5, none, none, 1, 1⟩

def oneAccountStore : Store := ⟨[oldAccount], [sampleCategory], [], 3, 2⟩

def twoAccountStore : Store := ⟨[oldAccount, newAccount], [sampleCategory], [], 3, 2⟩

/-- A store whose physical row order lists the newer account first: the
`DatabaseStorage.getAccounts` query has no ORDER BY, so nothing ties the
order rows come back in to `createdAt`. -/
def newestFirstStore : Store := ⟨[newAccount, oldAccount], [sampleCategory], [], 3, 2⟩

def expiredStore : Store := ⟨[expiredAccount], [sampleCategory], [], 2, 2⟩

def plainMember : Member := ⟨[], false⟩

def userCtx : Ctx := ⟨true, false, plainMember, "user1"⟩

def openSettings : BotSettings := ⟨"!", [], [], 3600⟩

def roleSettings : BotSettings := ⟨"!", ["r1"], [], 3600⟩

/-! ### Helper lemmas -/

lemma updRow_id (i : Nat) (u : AccountUpdate) (now : Nat) (x : Account) :
    (if x.id = i then applyUpdate u now x else x).id = x.id := by
  split <;> rfl

/-- Facts about `updateAccount` when the row exists: the rows are the
pointwise update, exactly one log entry is appended, and the categories
are untouched. -/
lemma updateAccount_found (s : Store) (i : Nat) (u : AccountUpdate) (now : Nat)
    (h : ∃ x ∈ s.accounts, x.id = i) :
    (updateAccount s i u now).1.accounts
        = s.accounts.map (fun a => if a.id = i then applyUpdate u now a else a) ∧
    (updateAccount s i u now).1.logs.length = s.logs.length + 1 ∧
    (updateAccount s i u now).1.categories = s.categories := by
  obtain ⟨x, hx, hxi⟩ := h
  unfold updateAccount
  split
  · next hnone =>
    rw [List.find?_eq_none] at hnone
    exact absurd (by simpa using hxi) (by simpa using hnone x hx)
  · next y hy =>
    refine ⟨rfl, by simp, rfl⟩

lemma exists_id_after_update (s : Store) (i : Nat) (u : AccountUpdate) (now : Nat)
    (h : ∃ x ∈ s.accounts, x.id = i) :
    ∃ x ∈ (updateAccount s i u now).1.accounts, x.id = i := by
  obtain ⟨x, hx, hxi⟩ := h
  rw [(updateAccount_found s i u now ⟨x, hx, hxi⟩).1]
  exact ⟨_, List.mem_map_of_mem _ hx, by rw [updRow_id]; exact hxi⟩

/-- Availability filter after marking the rows with id `i` generated:
exactly the old availability filter with id `i` removed. -/
lemma filter_avail_map_mark (l : List Account) (cid i now : Nat) (gb : String) :
    (((l.map (fun a => if a.id = i then
          applyUpdate ⟨some "generated", some (some gb), some (some now)⟩ now a
        else a)).filter
        (fun a => a.categoryId = cid)).filter (fun a => a.status = "available"))
      = ((l.filter (fun a => a.categoryId = cid)).filter
          (fun a => a.status = "available")).filter (fun a => a.id ≠ i) := by
  induction l with
  | nil => rfl
  | cons a t ih =>
    simp only [List.filter_filter, applyUpdate, decide_not, Option.getD_some] at ih ⊢
    simp only [List.map_cons, List.filter_cons]
    by_cases hid : a.id = i
    · by_cases hcat : a.categoryId = cid
      · simp [hid, hcat, ih]
      · simp [hid, hcat, ih]
    · by_cases hcat : a.categoryId = cid
      · by_cases hst : a.status = "available"
        · simp [hid, hcat, hst, ih]
        · simp [hid, hcat, hst, ih]
      · simp [hid, hcat, ih]

lemma getAccounts_mark_generated (s : Store) (cid i now : Nat) (gb : String)
    (h : ∃ x ∈ s.accounts, x.id = i) :
    getAccounts ((updateAccount s i
        ⟨some "generated", some (some gb), some (some now)⟩ now).1) cid "available"
      = (getAccounts s cid "available").filter (fun a => a.id ≠ i) := by
  unfold getAccounts
  rw [(updateAccount_found s i _ now h).1]
  exact filter_avail_map_mark s.accounts cid i now gb

lemma mem_accounts_of_mem_getAccounts {s : Store} {cid : Nat} {st : String}
    {a : Account} (h : a ∈ getAccounts s cid st) : a ∈ s.accounts := by
  unfold getAccounts at h
  exact List.mem_of_mem_filter (List.mem_of_mem_filter h)

/-- Reduction of the successful-delivery path of the generate command to
its explicit result record. -/
lemma generate_success_eq (s : Store) (ctx : Ctx) (st : BotSettings)
    (args : List String) (svc : String) (c : Category) (a : Account)
    (rest : List Account) (now : Nat)
    (hperm : hasPermission ctx.inGuild ctx.isOwner (some st) ctx.member = true)
    (hsvc : ((args.head?).map lowerStr).getD "" = svc)
    (hne : svc ≠ "")
    (hcat : getCategoryByName s svc = some c)
    (havail : getAccounts s c.id "available" = a :: rest) :
    handleGenerateCommand s ctx st args true now =
      ⟨createLogS (updateAccount s a.id
          ⟨some "generated", some (some ctx.authorTag), some (some now)⟩ now).1
          "success" "ACCOUNT_GENERATED" a.email,
        .success a.id, 1, 1⟩ := by
  unfold handleGenerateCommand
  rw [hperm]
  simp only [Bool.not_true, Bool.false_eq_true, if_false, hsvc, if_neg hne, hcat, havail]
  simp

/-- Reduction of the delivery-failure path of the generate command to
its explicit result record. -/
lemma generate_dm_failure_eq (s : Store) (ctx : Ctx) (st : BotSettings)
    (args : List String) (svc : String) (c : Category) (a : Account)
    (rest : List Account) (now : Nat)
    (hperm : hasPermission ctx.inGuild ctx.isOwner (some st) ctx.member = true)
    (hsvc : ((args.head?).map lowerStr).getD "" = svc)
    (hne : svc ≠ "")
    (hcat : getCategoryByName s svc = some c)
    (havail : getAccounts s c.id "available" = a :: rest) :
    handleGenerateCommand s ctx st args false now =
      ⟨(updateAccount (createLogS (updateAccount s a.id
          ⟨some "generated", some (some ctx.authorTag), some (some now)⟩ now).1
          "success" "ACCOUNT_GENERATED" a.email) a.id
          ⟨some "available", none, none⟩ now).1,
        .dmFailed a.id, 1, 1⟩ := by
  unfold handleGenerateCommand
  rw [hperm]
  simp only [Bool.not_true, Bool.false_eq_true, if_false, hsvc, if_neg hne, hcat, havail]

/-- Core selection fact shared by several theorems: when the permission
check passes, the service argument resolves to a category, and the
storage returns `a` as the first available account, the generate command
(with working DM delivery) claims exactly `a` — the head of the list in
storage order, whatever its `expiresAt` or `createdAt`. -/
lemma generate_selects_head (s : Store) (ctx : Ctx) (st : BotSettings)
    (args : List String) (svc : String) (c : Category) (a : Account)
    (rest : List Account) (now : Nat)
    (hperm : hasPermission ctx.inGuild ctx.isOwner (some st) ctx.member = true)
    (hsvc : ((args.head?).map lowerStr).getD "" = svc)
    (hne : svc ≠ "")
    (hcat : getCategoryByName s svc = some c)
    (havail : getAccounts s c.id "available" = a :: rest) :
    (handleGenerateCommand s ctx st args true now).outcome = .success a.id := by
  rw [generate_success_eq s ctx st args svc c a rest now hperm hsvc hne hcat havail]

/-! ### Claim C1 — atomicity of concurrent claims -/

/-- Claim C1, counterexample.  `handleGenerateCommand` reads the
available list and marks the chosen account generated in two separate
storage calls with no conditional update, so under the interleaving
read-read-write-write two concurrent generate commands for a category
holding exactly one available account BOTH finish successfully with the
same account (id 1) — the claim says at most one succeeds and the other
observes stock exhaustion. -/
theorem C1_interleaved_both_succeed :
    (getAccounts oneAccountStore sampleCategory.id "available").length = 1 ∧
    (runClaims sampleCategory.id 100 oneAccountStore ⟨"u1", .ready⟩ ⟨"u2", .ready⟩
        [true, false, true, false]).2.1.phase = .finished (.success oldAccount.id) ∧
    (runClaims sampleCategory.id 100 oneAccountStore ⟨"u1", .ready⟩ ⟨"u2", .ready⟩
        [true, false, true, false]).2.2.phase = .finished (.success oldAccount.id) := by
  decide

/-- Claim C1, amended: only when the two claims do NOT interleave
(one runs both its storage steps before the other starts) does the
claimed behaviour hold — the first claim takes the last available
account and the second observes `stockExhausted`.  The code provides no
atomicity, so the property holds only for serialised executions. -/
theorem C1_serial_claims_atomic (s : Store) (a : Account) (cid now : Nat)
    (u1 u2 : String)
    (h : getAccounts s cid "available" = [a]) :
    ((runClaims cid now s ⟨u1, .ready⟩ ⟨u2, .ready⟩ [true, true, false, false]).2.1.phase
        = .finished (.success a.id)) ∧
    ((runClaims cid now s ⟨u1, .ready⟩ ⟨u2, .ready⟩ [true, true, false, false]).2.2.phase
        = .finished .stockExhausted) := by
  have hmem : ∃ x ∈ s.accounts, x.id = a.id :=
    ⟨a, mem_accounts_of_mem_getAccounts (h ▸ List.mem_cons_self a []), rfl⟩
  have hempty : getAccounts (updateAccount s a.id
      ⟨some "generated", some (some u1), some (some now)⟩ now).1 cid "available" = [] := by
    have hg := getAccounts_mark_generated s cid a.id now u1 hmem
    rw [h] at hg
    simpa using hg
  have hlog : ∀ (s' : Store) (t ac m : String),
      getAccounts (createLogS s' t ac m) cid "available"
        = getAccounts s' cid "available" := fun _ _ _ _ => rfl
  simp only [runClaims, claimStep, h, hlog, hempty]
  exact ⟨trivial, trivial⟩

/-- Witness for `C1_serial_claims_atomic` at the one-account store. -/
theorem C1_serial_claims_atomic_witness :
    ((runClaims sampleCategory.id 100 oneAccountStore ⟨"u1", .ready⟩ ⟨"u2", .ready⟩
        [true, true, false, false]).2.1.phase = .finished (.success oldAccount.id)) ∧
    ((runClaims sampleCategory.id 100 oneAccountStore ⟨"u1", .ready⟩ ⟨"u2", .ready⟩
        [true, true, false, false]).2.2.phase = .finished .stockExhausted) :=
  C1_serial_claims_atomic oneAccountStore oldAccount sampleCategory.id 100 "u1" "u2"
    (by decide)

/-! ### Claim C2 — cooldown enforcement -/

/-- Claim C2: the generate handler performs NO cooldown check and keeps
no cooldown tracker (its own comment at `src/server/db.ts` lines 194-195
says cooldown is not implemented), although the settings carry
`cooldown = 3600` and the bot documents and administers the cooldown
(`setcooldown`, `cooldown` commands).  Evaluating the code at the
failing input: the same requester claims twice at the same instant and
both claims succeed; no `CooldownActive` outcome exists anywhere in the
handler. -/
theorem C2_cooldown_not_enforced :
    openSettings.cooldown = 3600 ∧
    (handleGenerateCommand twoAccountStore userCtx openSettings ["netflix"] true 100).outcome
        = .success oldAccount.id ∧
    (handleGenerateCommand
        (handleGenerateCommand twoAccountStore userCtx openSettings ["netflix"] true 100).store
        userCtx openSettings ["netflix"] true 100).outcome = .success newAccount.id := by
  decide

/-! ### Claim C3 — expired accounts and selection -/

/-- Claim C3, counterexample.  The store holds a single account whose
stored status is "available" but whose `expiresAt` (5) is long past
`now` (100); the claim says it is never returned and the call yields
stock exhaustion, yet the generate command returns it. -/
theorem C3_expired_account_served :
    expiredStore.accounts = [expiredAccount] ∧
    expiredAccount.status = "available" ∧
    expiredAccount.expiresAt = some 5 ∧
    (handleGenerateCommand expiredStore userCtx openSettings ["netflix"] true 100).outcome
        = .success expiredAccount.id := by
  decide

/-- Claim C3, amended: selection consults only the stored `status` and
`categoryId` fields — an account whose `expiresAt` lies strictly in the
past is still selected and returned whenever it heads the available
list; `StockExhausted` arises only when no status-available account
exists in the category. -/
theorem C3_selection_ignores_expiry (s : Store) (ctx : Ctx) (st : BotSettings)
    (args : List String) (svc : String) (c : Category) (a : Account)
    (rest : List Account) (now texp : Nat)
    (hexp : a.expiresAt = some texp) (hpast : texp < now)
    (hperm : hasPermission ctx.inGuild ctx.isOwner (some st) ctx.member = true)
    (hsvc : ((args.head?).map lowerStr).getD "" = svc)
    (hne : svc ≠ "")
    (hcat : getCategoryByName s svc = some c)
    (havail : getAccounts s c.id "available" = a :: rest) :
    (handleGenerateCommand s ctx st args true now).outcome = .success a.id :=
  generate_selects_head s ctx st args svc c a rest now hperm hsvc hne hcat havail

/-- Witness for `C3_selection_ignores_expiry` at the expired store. -/
theorem C3_selection_ignores_expiry_witness :
    (handleGenerateCommand expiredStore userCtx openSettings ["netflix"] true 100).outcome
        = .success expiredAccount.id :=
  C3_selection_ignores_expiry expiredStore userCtx openSettings ["netflix"] "netflix"
    sampleCategory expiredAccount [] 100 5 (by decide) (by decide) (by decide)
    (by decide) (by decide) (by decide) (by decide)

/-! ### Claim C4 — the status/null-fields invariant -/

/-- Claim C4, counterexample.  The delivery-failure compensation calls
`updateAccount(id, { status: "available" })` with ONLY the status field,
so the reverted account keeps `generatedBy` and `generatedAt` from the
claim: the store satisfies the status-iff-nulls invariant before the
run and violates it afterwards. -/
theorem C4_invariant_violated_after_dm_failure :
    (∀ a ∈ oneAccountStore.accounts, statusInv a) ∧
    ¬ (∀ a ∈ (handleGenerateCommand oneAccountStore userCtx openSettings
        ["netflix"] false 100).store.accounts, statusInv a) := by
  decide

/-- Claim C4, amended: the claim path itself writes status, generatedBy
and generatedAt together, but the delivery-failure compensation reverts
only `status` to "available", leaving `generatedBy = some requester` and
`generatedAt = some now` on the reverted row — so the compensation path
does not preserve the `status = available ⟺ both-null` invariant. -/
theorem C4_release_keeps_generated_fields (s : Store) (ctx : Ctx) (st : BotSettings)
    (args : List String) (svc : String) (c : Category) (a : Account)
    (rest : List Account) (now : Nat)
    (hperm : hasPermission ctx.inGuild ctx.isOwner (some st) ctx.member = true)
    (hsvc : ((args.head?).map lowerStr).getD "" = svc)
    (hne : svc ≠ "")
    (hcat : getCategoryByName s svc = some c)
    (havail : getAccounts s c.id "available" = a :: rest) :
    (handleGenerateCommand s ctx st args false now).outcome = .dmFailed a.id ∧
    (∃ x ∈ (handleGenerateCommand s ctx st args false now).store.accounts, x.id = a.id) ∧
    (∀ x ∈ (handleGenerateCommand s ctx st args false now).store.accounts,
      x.id = a.id →
        x.status = "available" ∧ x.generatedBy = some ctx.authorTag ∧
          x.generatedAt = some now) := by
  rw [generate_dm_failure_eq s ctx st args svc c a rest now hperm hsvc hne hcat havail]
  have hmem : ∃ x ∈ s.accounts, x.id = a.id :=
    ⟨a, mem_accounts_of_mem_getAccounts (havail ▸ List.mem_cons_self a rest), rfl⟩
  set u1 : AccountUpdate := ⟨some "generated", some (some ctx.authorTag), some (some now)⟩
    with hu1
  set u2 : AccountUpdate := ⟨some "available", none, none⟩ with hu2
  have ha1 := (updateAccount_found s a.id u1 now hmem).1
  set s1 := (updateAccount s a.id u1 now).1 with hs1
  set s2 := createLogS s1 "success" "ACCOUNT_GENERATED" a.email with hs2
  have hacc2 : s2.accounts = s1.accounts := rfl
  have hmem2 : ∃ x ∈ s2.accounts, x.id = a.id := by
    rw [hacc2, ha1]
    obtain ⟨x, hx, hxi⟩ := hmem
    exact ⟨_, List.mem_map_of_mem _ hx, by rw [updRow_id]; exact hxi⟩
  have ha2 := (updateAccount_found s2 a.id u2 now hmem2).1
  refine ⟨rfl, ?_, ?_⟩
  · obtain ⟨x, hx, hxi⟩ := hmem2
    rw [ha2]
    exact ⟨_, List.mem_map_of_mem _ hx, by rw [updRow_id]; exact hxi⟩
  · intro x hx hxi
    rw [ha2, hacc2, ha1, List.map_map] at hx
    obtain ⟨y, hy, rfl⟩ := List.mem_map.mp hx
    by_cases hyid : y.id = a.id
    · simp only [Function.comp, hyid, if_pos, applyUpdate, Option.getD_some]
      have hmid : (applyUpdate u1 now y).id = a.id := hyid
      simp [hmid, applyUpdate, hu1, hu2]
    · simp [hyid] at hxi

/-- Witness for `C4_release_keeps_generated_fields` at the one-account
store. -/
theorem C4_release_keeps_generated_fields_witness :
    (handleGenerateCommand oneAccountStore userCtx openSettings ["netflix"] false 100).outcome
        = .dmFailed oldAccount.id ∧
    (∃ x ∈ (handleGenerateCommand oneAccountStore userCtx openSettings
        ["netflix"] false 100).store.accounts, x.id = oldAccount.id) ∧
    (∀ x ∈ (handleGenerateCommand oneAccountStore userCtx openSettings
        ["netflix"] false 100).store.accounts,
      x.id = oldAccount.id →
        x.status = "available" ∧ x.generatedBy = some userCtx.authorTag ∧
          x.generatedAt = some 100) :=
  C4_release_keeps_generated_fields oneAccountStore userCtx openSettings ["netflix"]
    "netflix" sampleCategory oldAccount [] 100 (by decide) (by decide) (by decide)
    (by decide) (by decide)

/-! ### Claim C5 — FIFO selection -/

/-- Claim C5, counterexample.  `DatabaseStorage.getAccounts` issues its
SELECT with no ORDER BY, so the row order is a property of the store,
not of `createdAt`: in a store whose rows come back newest-first, the
generate command returns the newer account (id 2, createdAt 10) even
though an older available non-expired account (id 1, createdAt 5) is
present — the claim says the oldest-created account is selected. -/
theorem C5_storage_order_not_fifo :
    oldAccount.createdAt < newAccount.createdAt ∧
    oldAccount.status = "available" ∧ oldAccount.expiresAt = none ∧
    oldAccount ∈ newestFirstStore.accounts ∧
    (handleGenerateCommand newestFirstStore userCtx openSettings ["netflix"] true 100).outcome
        = .success newAccount.id ∧
    newAccount.id ≠ oldAccount.id := by
  decide

/-- Claim C5, amended: the generate command always takes the FIRST
available account in the order the storage returns the rows; the
oldest-createdAt (ties by lowest id) account is selected exactly when
the store rows are already sorted in that order — which holds for the
in-memory storage (insertion order) but is not guaranteed by the
database query, which has no ORDER BY. -/
theorem C5_head_selection_fifo_when_sorted (s : Store) (ctx : Ctx) (st : BotSettings)
    (args : List String) (svc : String) (c : Category) (a : Account)
    (rest : List Account) (now : Nat)
    (hsort : s.accounts.Pairwise fifoLt)
    (hperm : hasPermission ctx.inGuild ctx.isOwner (some st) ctx.member = true)
    (hsvc : ((args.head?).map lowerStr).getD "" = svc)
    (hne : svc ≠ "")
    (hcat : getCategoryByName s svc = some c)
    (havail : getAccounts s c.id "available" = a :: rest) :
    (handleGenerateCommand s ctx st args true now).outcome = .success a.id ∧
    ∀ b ∈ getAccounts s c.id "available", b ≠ a → fifoLt a b := by
  refine ⟨generate_selects_head s ctx st args svc c a rest now hperm hsvc hne hcat havail, ?_⟩
  intro b hb hba
  have hpair : (getAccounts s c.id "available").Pairwise fifoLt := by
    unfold getAccounts
    exact List.Pairwise.sublist
      ((List.filter_sublist _).trans (List.filter_sublist _)) hsort
  rw [havail] at hpair hb
  rcases List.mem_cons.mp hb with rfl | hb2
  · exact absurd rfl hba
  · exact (List.pairwise_cons.mp hpair).1 b hb2

/-- Witness for `C5_head_selection_fifo_when_sorted` at the sorted
two-account store. -/
theorem C5_head_selection_fifo_when_sorted_witness :
    (handleGenerateCommand twoAccountStore userCtx openSettings ["netflix"] true 100).outcome
        = .success oldAccount.id ∧
    ∀ b ∈ getAccounts twoAccountStore sampleCategory.id "available",
      b ≠ oldAccount → fifoLt oldAccount b :=
  C5_head_selection_fifo_when_sorted twoAccountStore userCtx openSettings ["netflix"]
    "netflix" sampleCategory oldAccount [newAccount] 100 (by decide) (by decide)
    (by decide) (by decide) (by decide) (by decide)

/-! ### Claim C6 — user-level permission default -/

/-- Claim C6: in a guild scope, `hasPermission` returns true whenever
the settings row has an empty `allowedRoles` list, and returns false
exactly when that list is non-empty, the requester holds none of the
listed roles, and the requester does not pass the `isAdmin` check. -/
theorem C6_user_permission_default (st : BotSettings) (m : Member) (io : Bool) :
    (st.allowedRoles = [] → hasPermission true io (some st) m = true) ∧
    (hasPermission true io (some st) m = false ↔
      (st.allowedRoles ≠ [] ∧ (∀ r ∈ st.allowedRoles, m.roles.contains r = false) ∧
        isAdminCheck true io (some st) m = false)) := by
  have hred : hasPermission true io (some st) m
      = (if st.allowedRoles.isEmpty then true
         else st.allowedRoles.any (fun r => m.roles.contains r)
              || isAdminCheck true io (some st) m) := by
    unfold hasPermission
    simp
  constructor
  · intro h
    rw [hred]
    simp [h]
  · rw [hred]
    by_cases he : st.allowedRoles.isEmpty = true
    · simp [he, List.isEmpty_iff.mp he]
    · rw [if_neg he]
      have hne : st.allowedRoles ≠ [] := by simpa [List.isEmpty_iff] using he
      cases hany : st.allowedRoles.any (fun r => m.roles.contains r) with
      | true =>
        simp only [Bool.true_or]
        obtain ⟨r, hr, hrc⟩ := List.any_eq_true.mp hany
        constructor
        · intro h
          simp at h
        · rintro ⟨-, hall, -⟩
          rw [hall r hr] at hrc
          cases hrc
      | false =>
        simp only [Bool.false_or]
        constructor
        · intro hx
          refine ⟨hne, fun r hr => ?_, hx⟩
          have h := List.any_eq_false.mp hany r hr
          simpa using h
        · rintro ⟨-, -, hx⟩
          exact hx

/-- Witness for `C6_user_permission_default`: with one required role
that a role-less non-admin member lacks, permission is denied. -/
theorem C6_user_permission_default_witness :
    hasPermission true false (some roleSettings) plainMember = false :=
  (C6_user_permission_default roleSettings plainMember false).2.mpr (by decide)

/-! ### Claim C7 — one reply, one log entry per claim attempt -/

/-- Claim C7, counterexample.  A permission-denied claim attempt replies
once but appends NO log entry at all, against the claimed exactly-one
log entry per attempt (and a successful attempt appends two, see
`logCountOf`). -/
theorem C7_denied_attempt_logs_nothing :
    (handleGenerateCommand oneAccountStore userCtx roleSettings ["netflix"] true 100).outcome
        = .permissionDenied ∧
    (handleGenerateCommand oneAccountStore userCtx roleSettings ["netflix"] true 100).replies = 1 ∧
    (handleGenerateCommand oneAccountStore userCtx roleSettings ["netflix"] true 100).store.logs
        = [] := by
  decide

/-- Claim C7, amended: every claim attempt sends exactly one channel
reply, but the number of appended log entries depends on the outcome —
zero for the permission / usage / unknown-category errors, one for
stock exhaustion, two for a delivered success (`ACCOUNT_UPDATED` plus
`ACCOUNT_GENERATED`), three when the DM delivery fails and the revert
update logs again. -/
theorem C7_one_reply_log_count_by_outcome (s : Store) (ctx : Ctx) (st : BotSettings)
    (args : List String) (dmOk : Bool) (now : Nat) :
    (handleGenerateCommand s ctx st args dmOk now).replies = 1 ∧
    (handleGenerateCommand s ctx st args dmOk now).store.logs.length
      = s.logs.length + logCountOf (handleGenerateCommand s ctx st args dmOk now).outcome := by
  by_cases hp : hasPermission ctx.inGuild ctx.isOwner (some st) ctx.member = true
  · by_cases hsvcE : ((args.head?).map lowerStr).getD "" = ""
    · have hred : handleGenerateCommand s ctx st args dmOk now = ⟨s, .usageError, 1, 0⟩ := by
        unfold handleGenerateCommand
        rw [hp]
        simp [hsvcE]
      rw [hred]
      exact ⟨rfl, by simp [logCountOf]⟩
    · cases hcat : getCategoryByName s (((args.head?).map lowerStr).getD "") with
      | none =>
        have hred : handleGenerateCommand s ctx st args dmOk now
            = ⟨s, .categoryNotFound, 1, 0⟩ := by
          unfold handleGenerateCommand
          rw [hp]
          simp [hsvcE, hcat]
        rw [hred]
        exact ⟨rfl, by simp [logCountOf]⟩
      | some c =>
        cases havail : getAccounts s c.id "available" with
        | nil =>
          have hred : handleGenerateCommand s ctx st args dmOk now
              = ⟨createLogS s "warning" "ACCOUNT_GENERATION_FAILED"
                  (((args.head?).map lowerStr).getD ""), .stockExhausted, 1, 0⟩ := by
            unfold handleGenerateCommand
            rw [hp]
            simp [hsvcE, hcat, havail]
          rw [hred]
          exact ⟨rfl, by simp [createLogS, logCountOf]⟩
        | cons a rest =>
          have hmem : ∃ x ∈ s.accounts, x.id = a.id :=
            ⟨a, mem_accounts_of_mem_getAccounts (havail ▸ List.mem_cons_self a rest), rfl⟩
          have h1 := (updateAccount_found s a.id
            ⟨some "generated", some (some ctx.authorTag), some (some now)⟩ now hmem).2.1
          cases dmOk with
          | true =>
            rw [generate_success_eq s ctx st args _ c a rest now hp rfl hsvcE hcat havail]
            exact ⟨rfl, by simp [createLogS, logCountOf, h1]⟩
          | false =>
            rw [generate_dm_failure_eq s ctx st args _ c a rest now hp rfl hsvcE hcat havail]
            have hmem2 : ∃ x ∈ (createLogS (updateAccount s a.id
                ⟨some "generated", some (some ctx.authorTag), some (some now)⟩ now).1
                "success" "ACCOUNT_GENERATED" a.email).accounts, x.id = a.id := by
              have hacc : (createLogS (updateAccount s a.id
                  ⟨some "generated", some (some ctx.authorTag), some (some now)⟩ now).1
                  "success" "ACCOUNT_GENERATED" a.email).accounts
                  = (updateAccount s a.id
                      ⟨some "generated", some (some ctx.authorTag), some (some now)⟩
                      now).1.accounts := rfl
              rw [hacc]
              exact exists_id_after_update s a.id _ now hmem
            have h3 := (updateAccount_found _ a.id ⟨some "available", none, none⟩ now hmem2).2.1
            refine ⟨rfl, ?_⟩
            simp only [logCountOf]
            rw [h3]
            simp [createLogS, h1]
  · have hp' : hasPermission ctx.inGuild ctx.isOwner (some st) ctx.member = false := by
      simpa using hp
    have hred : handleGenerateCommand s ctx st args dmOk now
        = ⟨s, .permissionDenied, 1, 0⟩ := by
      unfold handleGenerateCommand
      rw [hp']
      simp
    rw [hred]
    exact ⟨rfl, by simp [logCountOf]⟩

/-! ### Claim C8 — unknown commands are silently ignored -/

/-- Claim C8: an inbound message that starts with the configured prefix
but whose first word is not one of the eleven known command names falls
through to the empty `default:` branch of the dispatch switch — no
handler runs, no storage operation happens, no reply and no error is
produced (`routeMessage` yields `noAction`). -/
theorem C8_unknown_command_no_action (pfx content : String)
    (hpre : startsWithStr content pfx = true)
    (hunk : (parseCommand pfx content).1 ∉ knownCommands) :
    routeMessage pfx content = .noAction := by
  unfold routeMessage
  rw [hpre]
  simp only [Bool.not_true, Bool.false_eq_true, if_false]
  rcases hpc : parseCommand pfx content with ⟨cmd, as⟩
  rw [hpc] at hunk
  simp only [hpc]
  simp [hunk]

/-- Witness for `C8_unknown_command_no_action` on a concrete prefixed
message with an unrecognised command word. -/
theorem C8_unknown_command_no_action_witness :
    routeMessage "!" "!frobnicate xyz" = .noAction :=
  C8_unknown_command_no_action "!" "!frobnicate xyz" (by decide) (by decide)

/-! ### Claim C9 — legacy plaintext passwords -/

/-- Claim C9: for a stored password containing no dot separator,
`comparePasswords` compares by plain string equality (no hashing), and
the login credential check for such a legacy user succeeds exactly on a
plaintext match. -/
theorem C9_legacy_plaintext_compare (f : String → String → String)
    (supplied stored username : String) (u : User)
    (hnodot : containsChar stored '.' = false)
    (hname : u.username = username) (hpw : u.password = stored) :
    (comparePasswords f supplied stored = true ↔ supplied = stored) ∧
    (loginCheck f [u] username supplied = true ↔ supplied = stored) := by
  have hcp : comparePasswords f supplied stored = (supplied == stored) := by
    unfold comparePasswords
    rw [hnodot]
    simp
  have hfind : List.find? (fun v => v.username = username) [u] = some u := by
    simp [List.find?_cons, hname]
  constructor
  · rw [hcp]
    exact beq_iff_eq
  · unfold loginCheck
    rw [hfind]
    show comparePasswords f supplied u.password = true ↔ supplied = stored
    rw [hpw, hcp]
    exact beq_iff_eq

/-- Witness for `C9_legacy_plaintext_compare` on the dot-free stored
password "admin123". -/
theorem C9_legacy_plaintext_compare_witness :
    (comparePasswords (fun _ _ => "") "admin123" "admin123" = true ↔
      ("admin123" : String) = "admin123") ∧
    (loginCheck (fun _ _ => "") [⟨1, "admin", "admin123", true⟩] "admin" "admin123" = true ↔
      ("admin123" : String) = "admin123") :=
  C9_legacy_plaintext_compare (fun _ _ => "") "admin123" "admin123" "admin"
    ⟨1, "admin", "admin123", true⟩ (by decide) (by decide) (by decide)

/-! ### Claim C10 — add command auto-creates the category -/

/-- Claim C10: an admin add command naming a category that does not
exist does not fail — it first creates the category with that name and
description `"<name> accounts"`, then inserts the account into it with
status "available" and null expiry / generated fields. -/
theorem C10_add_autocreates_category (s : Store) (ctx : Ctx) (st : Option BotSettings)
    (svc details : String) (now : Nat)
    (hadmin : isAdminCheck ctx.inGuild ctx.isOwner st ctx.member = true)
    (hcolon : containsChar details ':' = true)
    (hnone : getCategoryByName s svc = none) :
    (handleAddCommand s ctx st [svc, details] now).2
        = .added s.nextCategoryId s.nextAccountId ∧
    (handleAddCommand s ctx st [svc, details] now).1.categories
        = s.categories ++ [⟨s.nextCategoryId, svc, svc ++ " accounts"⟩] ∧
    (handleAddCommand s ctx st [svc, details] now).1.accounts
        = s.accounts ++ [⟨s.nextAccountId, (splitOnChar ':' details).headD "",
            (splitOnChar ':' details).getD 1 "", s.nextCategoryId, "available",
            none, none, none, now, now⟩] := by
  unfold handleAddCommand
  rw [hadmin]
  simp [hcolon, hnone, createCategoryS, createAccountS, createLogS]

/-- Witness for `C10_add_autocreates_category` on an empty store. -/
theorem C10_add_autocreates_category_witness :
    (handleAddCommand ⟨[], [], [], 5, 7⟩ ⟨true, false, ⟨[], true⟩, "adm"⟩
        (some openSettings) ["netflix", "x@y.com:pw"] 50).2 = .added 7 5 ∧
    (handleAddCommand ⟨[], [], [], 5, 7⟩ ⟨true, false, ⟨[], true⟩, "adm"⟩
        (some openSettings) ["netflix", "x@y.com:pw"] 50).1.categories
        = [] ++ [⟨7, "netflix", "netflix" ++ " accounts"⟩] ∧
    (handleAddCommand ⟨[], [], [], 5, 7⟩ ⟨true, false, ⟨[], true⟩, "adm"⟩
        (some openSettings) ["netflix", "x@y.com:pw"] 50).1.accounts
        = [] ++ [⟨5, (splitOnChar ':' "x@y.com:pw").headD "",
            (splitOnChar ':' "x@y.com:pw").getD 1 "", 7, "available",
            none, none, none, 50, 50⟩] :=
  C10_add_autocreates_category ⟨[], [], [], 5, 7⟩ ⟨true, false, ⟨[], true⟩, "adm"⟩
    (some openSettings) "netflix" "x@y.com:pw" 50 (by decide) (by decide) (by decide)

end AcctGen
